import Mathlib

/-!
Verification of the visura PDF parser (`uppi/docs/visura_pdf_parser.py`).

The development shallowly embeds the parsing core of `VisuraParser`:
the Python regular expressions used by the address, area, identity and
comune extractors are represented by a small backtracking regex engine
(`RE` / `matchRE` / `reSearch`) that reproduces CPython `re` semantics for
the constructs those patterns actually use (ordered alternation, greedy
`?`/`*`/`+` over character classes, one lazy `+?` over a class, capture
groups, case-insensitive literals).  Strings are worked on as `List Char`,
matching Python's per-character view of `str`.
-/

namespace Visura

/-! ## Character helpers (ASCII plus the Latin-1 letters used by the source) -/

/-- Python `\s` / `str.strip()` whitespace, restricted to the ASCII range
(the source documents contain no exotic Unicode whitespace). -/
def isPySpace (c : Char) : Bool :=
  c = ' ' || c = '\t' || c = '\n' || c = '\r' || c = '\x0b' || c = '\x0c'

def isAsciiDigit (c : Char) : Bool := '0' ≤ c && c ≤ '9'

def isAsciiUpper (c : Char) : Bool := 'A' ≤ c && c ≤ 'Z'

def isAsciiLower (c : Char) : Bool := 'a' ≤ c && c ≤ 'z'

def isAsciiAlpha (c : Char) : Bool := isAsciiUpper c || isAsciiLower c

def isAsciiAlnum (c : Char) : Bool := isAsciiAlpha c || isAsciiDigit c

/-- Lower-casing as performed by CPython `str.lower()` on the alphabet the
parser touches: ASCII letters plus the Latin-1 uppercase letters
(`À`..`Þ`, excluding `×`). -/
def charLower (c : Char) : Char :=
  if isAsciiUpper c then Char.ofNat (c.toNat + 32)
  else if 'À' ≤ c && c ≤ 'Þ' && !(c = '×') then Char.ofNat (c.toNat + 32)
  else c

/-- Upper-casing as performed by CPython `str.upper()` on the same alphabet
(ASCII letters plus `à`..`þ`, excluding `÷`). -/
def charUpper (c : Char) : Char :=
  if isAsciiLower c then Char.ofNat (c.toNat - 32)
  else if 'à' ≤ c && c ≤ 'þ' && !(c = '÷') then Char.ofNat (c.toNat - 32)
  else c

/-! ## List-of-characters helpers -/

/-- Does `cs` start with `pat` (character-exact)? -/
def leadsWith : List Char → List Char → Bool
  | [], _ => true
  | _ :: _, [] => false
  | a :: as, b :: bs => a = b && leadsWith as bs

/-- Does `cs` start with `pat`, compared case-insensitively
(CPython `re.IGNORECASE` folds through lower-casing)? -/
def leadsWithCI : List Char → List Char → Bool
  | [], _ => true
  | _ :: _, [] => false
  | a :: as, b :: bs => charLower a = charLower b && leadsWithCI as bs

/-- Substring occurrence, the embedding of Python's `pat in s`. -/
def listOccurs (pat : List Char) : List Char → Bool
  | [] => leadsWith pat []
  | c :: cs => leadsWith pat (c :: cs) || listOccurs pat cs

/-- Python `s.replace(old, new, 1)` for a non-empty `old`:
replace the first occurrence only. -/
def replaceFirst (pat rep : List Char) : List Char → List Char
  | [] => []
  | c :: cs =>
    if leadsWith pat (c :: cs) then rep ++ (c :: cs).drop pat.length
    else c :: replaceFirst pat rep cs

/-- Strip characters satisfying `p` from both ends
(Python `str.strip()` / `str.strip("_")`). -/
def stripBy (p : Char → Bool) (cs : List Char) : List Char :=
  (((cs.dropWhile p).reverse).dropWhile p).reverse

/-- Python `str.strip()` (whitespace at both ends). -/
def pyStrip (cs : List Char) : List Char := stripBy isPySpace cs

/-- The source's `text.replace("\n", " ")`. -/
def replaceNL (cs : List Char) : List Char :=
  cs.map (fun c => if c = '\n' then ' ' else c)

def pyUpperS (s : String) : String := String.mk (s.data.map charUpper)

/-- Python `" ".join(cells)`. -/
def joinSpace (l : List String) : String := String.intercalate " " l

/-- `pat in s` on `String`s. -/
def strContainsS (s pat : String) : Bool := listOccurs pat.data s.data

/-- Split a character list at every occurrence of `sep` (Python `str.split(sep)`
for a single-character separator). -/
def splitChar (sep : Char) : List Char → List (List Char)
  | [] => [[]]
  | c :: cs =>
    if c = sep then [] :: splitChar sep cs
    else
      match splitChar sep cs with
      | [] => [[c]]
      | p :: ps => (c :: p) :: ps

/-- Normalise `\r\n` and `\r` line ends to `\n` (first half of
Python `str.splitlines()` on the line separators the PDFs contain). -/
def nlNorm : List Char → List Char
  | [] => []
  | '\r' :: '\n' :: cs => '\n' :: nlNorm cs
  | '\r' :: cs => '\n' :: nlNorm cs
  | c :: cs => c :: nlNorm cs

/-- Python `str.splitlines()` restricted to `\n` / `\r\n` / `\r` separators:
split on line ends, with no trailing empty line. -/
def pySplitlines (s : String) : List (List Char) :=
  if s.data.isEmpty then []
  else
    let parts := splitChar '\n' (nlNorm s.data)
    match parts.getLast? with
    | some [] => parts.dropLast
    | _ => parts

/-! ## A small backtracking regex engine

Only the constructs appearing in `VisuraParser`'s patterns are modelled.
Alternation is ordered (left branch preferred), `?` is greedy, `*`/`+`
quantify a single character class greedily (longest first), `+?` is the
lazy variant (shortest first) — exactly CPython's backtracking order for
these constructs. -/

inductive RE where
  /-- the empty pattern -/
  | eps : RE
  /-- case-insensitive literal (patterns compiled with `re.IGNORECASE`) -/
  | str : List Char → RE
  /-- case-sensitive literal -/
  | strCS : List Char → RE
  /-- single-character class, e.g. `[A-Z0-9]` or `\s` or `.` -/
  | cls : (Char → Bool) → RE
  | seq : RE → RE → RE
  | alt : RE → RE → RE
  /-- greedy `?` -/
  | opt : RE → RE
  /-- greedy `*` over a character class -/
  | star : (Char → Bool) → RE
  /-- greedy `+` over a character class -/
  | plus : (Char → Bool) → RE
  /-- lazy `+?` over a character class -/
  | plusLazy : (Char → Bool) → RE
  /-- numbered capture group -/
  | group : Nat → RE → RE

/-- Suffixes of `cs` left after consuming a (possibly empty) run of
`p`-characters, longest consumption first — the greedy order for `*`. -/
def starKs (p : Char → Bool) : List Char → List (List Char)
  | [] => [[]]
  | c :: cs => if p c then starKs p cs ++ [c :: cs] else [c :: cs]

/-- Same suffixes, shortest consumption first — the lazy order. -/
def lazyKs (p : Char → Bool) : List Char → List (List Char)
  | [] => [[]]
  | c :: cs => (c :: cs) :: (if p c then lazyKs p cs else [])

/-- Try a continuation on a list of candidates, first success wins. -/
def firstSome (k : List Char → Option β) : List (List Char) → Option β
  | [] => none
  | cs :: rest =>
    match k cs with
    | some r => some r
    | none => firstSome k rest

/-- CPS backtracking matcher.  `caps` collects `(group index, captured text)`
pairs, most recent first.  The continuation receives the rest of the input
and the captures; returning `none` triggers backtracking. -/
def matchRE (r : RE) (cs : List Char) (caps : List (Nat × List Char))
    (k : List Char → List (Nat × List Char) → Option β) : Option β :=
  match r with
  | .eps => k cs caps
  | .str l => if leadsWithCI l cs then k (cs.drop l.length) caps else none
  | .strCS l => if leadsWith l cs then k (cs.drop l.length) caps else none
  | .cls p =>
    match cs with
    | [] => none
    | c :: cs2 => if p c then k cs2 caps else none
  | .seq a b => matchRE a cs caps (fun cs2 caps2 => matchRE b cs2 caps2 k)
  | .alt a b =>
    match matchRE a cs caps k with
    | some r => some r
    | none => matchRE b cs caps k
  | .opt a =>
    match matchRE a cs caps k with
    | some r => some r
    | none => k cs caps
  | .star p => firstSome (fun rest => k rest caps) (starKs p cs)
  | .plus p =>
    match cs with
    | [] => none
    | c :: cs2 => if p c then firstSome (fun rest => k rest caps) (starKs p cs2) else none
  | .plusLazy p =>
    match cs with
    | [] => none
    | c :: cs2 => if p c then firstSome (fun rest => k rest caps) (lazyKs p cs2) else none
  | .group n a =>
    matchRE a cs caps
      (fun cs2 caps2 => k cs2 ((n, cs.take (cs.length - cs2.length)) :: caps2))

/-- A successful regex match: start offset, the whole matched text
(`m.group(0)`) and the captured groups. -/
structure MatchRes where
  start : Nat
  g0 : List Char
  caps : List (Nat × List Char)
deriving DecidableEq

/-- `m.group(n)` (groups in these patterns always participate in a match). -/
def MatchRes.group (m : MatchRes) (n : Nat) : List Char :=
  if n = 0 then m.g0
  else ((m.caps.find? (fun p => p.1 = n)).map (fun p => p.2)).getD []

/-- `re.search`: try each start offset left to right, first match wins. -/
def reSearchAux (r : RE) : Nat → List Char → Option MatchRes
  | idx, cs =>
    match matchRE r cs [] (fun rest caps => some (rest, caps)) with
    | some (rest, caps) =>
      some ⟨idx, cs.take (cs.length - rest.length), caps⟩
    | none =>
      match cs with
      | [] => none
      | _ :: cs2 => reSearchAux r (idx + 1) cs2

def reSearch (r : RE) (cs : List Char) : Option MatchRes := reSearchAux r 0 cs

/-- `re.match` / a pattern anchored with `^`: offset 0 only. -/
def reMatch (r : RE) (cs : List Char) : Option MatchRes :=
  match matchRE r cs [] (fun rest caps => some (rest, caps)) with
  | some (rest, caps) => some ⟨0, cs.take (cs.length - rest.length), caps⟩
  | none => none

/-! ## The concrete patterns of `VisuraParser` -/

/-- `[\-\/\dA-Z]` under `re.IGNORECASE` (the source spells the slash
unescaped). -/
def isViaNumTail (c : Char) : Bool :=
  c = '-' || c = '/' || isAsciiDigit c || isAsciiAlpha c

/-- `[-A-Z0-9°]` under `re.IGNORECASE`. -/
def isPianoChar (c : Char) : Bool := c = '-' || isAsciiAlnum c || c = '°'

/-- `[0-9.,]`. -/
def isNumChar (c : Char) : Bool := isAsciiDigit c || c = '.' || c = ','

/-- `.` (any character except a newline). -/
def isDotChar (c : Char) : Bool := !(c = '\n')

/-- `[A-ZÀÈÌÒÙ]` (no IGNORECASE on `NAME_CF`). -/
def isUpperIt (c : Char) : Bool :=
  isAsciiUpper c || c = 'À' || c = 'È' || c = 'Ì' || c = 'Ò' || c = 'Ù'

/-- `[A-Za-zÀÈÌÒÙ]`. -/
def isLetterIt (c : Char) : Bool :=
  isAsciiAlpha c || c = 'À' || c = 'È' || c = 'Ì' || c = 'Ò' || c = 'Ù'

/-- `[A-Z0-9]` (case-sensitive, in `NAME_CF`). -/
def isUpperDigit (c : Char) : Bool := isAsciiUpper c || isAsciiDigit c

/-- `ADDRESS_PATTERNS["via_num"]`:
`(?:n\.?\s*)?([\d]+[A-Z]?[\-\/\dA-Z]*|SNC)` with `re.IGNORECASE`
(slash written escaped here; the source spells it unescaped). -/
def viaNumRE : RE :=
  .seq (.opt (.seq (.str ['n']) (.seq (.opt (.str ['.'])) (.star isPySpace))))
    (.group 1 (.alt
      (.seq (.plus isAsciiDigit)
        (.seq (.opt (.cls isAsciiAlpha)) (.star isViaNumTail)))
      (.str ['S', 'N', 'C'])))

/-- `ADDRESS_PATTERNS["scala"]`: `(SCALA|SC\.?)\s*([A-Z0-9]+)`, IGNORECASE. -/
def scalaRE : RE :=
  .seq (.group 1 (.alt (.str "SCALA".data)
      (.seq (.str "SC".data) (.opt (.str ['.'])))))
    (.seq (.star isPySpace) (.group 2 (.plus isAsciiAlnum)))

/-- `ADDRESS_PATTERNS["interno"]`: `(INTERNO|INT\.?)\s*([A-Z0-9]+)`, IGNORECASE. -/
def internoRE : RE :=
  .seq (.group 1 (.alt (.str "INTERNO".data)
      (.seq (.str "INT".data) (.opt (.str ['.'])))))
    (.seq (.star isPySpace) (.group 2 (.plus isAsciiAlnum)))

/-- `ADDRESS_PATTERNS["piano"]`:
`(PIANO|P\.?)\s*([-A-Z0-9°]+|T|TERRA|RIALZATO|AMMEZZATO|S\d)`, IGNORECASE. -/
def pianoRE : RE :=
  .seq (.group 1 (.alt (.str "PIANO".data)
      (.seq (.str ['P']) (.opt (.str ['.'])))))
    (.seq (.star isPySpace)
      (.group 2 (.alt (.plus isPianoChar)
        (.alt (.str ['T'])
          (.alt (.str "TERRA".data)
            (.alt (.str "RIALZATO".data)
              (.alt (.str "AMMEZZATO".data)
                (.seq (.str ['S']) (.cls isAsciiDigit)))))))))

/-- `STREET_TYPE_REGEX`:
`^(VIA|VIALE|PIAZZA|P\.?ZZA|CORSO|STRADA|VICOLO|LARGO|BORGO|LOCALITÀ|LOC\.?|FRAZIONE|FRAZ\.?|CONTRADA)\s+(.+)`
with `re.IGNORECASE | re.UNICODE`; used through `re.match` (anchored). -/
def streetRE : RE :=
  .seq (.group 1 (.alt (.str "VIA".data)
    (.alt (.str "VIALE".data)
    (.alt (.str "PIAZZA".data)
    (.alt (.seq (.str ['P']) (.seq (.opt (.str ['.'])) (.str "ZZA".data)))
    (.alt (.str "CORSO".data)
    (.alt (.str "STRADA".data)
    (.alt (.str "VICOLO".data)
    (.alt (.str "LARGO".data)
    (.alt (.str "BORGO".data)
    (.alt (.str "LOCALITÀ".data)
    (.alt (.seq (.str "LOC".data) (.opt (.str ['.'])))
    (.alt (.str "FRAZIONE".data)
    (.alt (.seq (.str "FRAZ".data) (.opt (.str ['.'])))
    (.str "CONTRADA".data)))))))))))))))
    (.seq (.plus isPySpace) (.group 2 (.plus isDotChar)))

/-- The pattern of the `re.split` call that truncates a street name:
`\s{2,}|Variazione|Annotazione|Aggiornamento` (case-sensitive). -/
def streetSplitRE : RE :=
  .alt (.seq (.cls isPySpace) (.plus isPySpace))
    (.alt (.strCS "Variazione".data)
      (.alt (.strCS "Annotazione".data) (.strCS "Aggiornamento".data)))

/-- `SUPERFICIE_TOTALE`: `Totale:\s*([0-9.,]+)` (case-sensitive). -/
def totaleRE : RE :=
  .seq (.strCS "Totale:".data)
    (.seq (.star isPySpace) (.group 1 (.plus isNumChar)))

/-- `SUPERFICIE_ESCLUSE`:
`Totale escluse aree\s*scoperte\*\*:\s*([0-9.,]+)` (case-sensitive). -/
def escluseRE : RE :=
  .seq (.strCS "Totale escluse aree".data)
    (.seq (.star isPySpace)
      (.seq (.strCS "scoperte**:".data)
        (.seq (.star isPySpace) (.group 1 (.plus isNumChar)))))

/-- `r` repeated `n` times (for `{16}`). -/
def repN (r : RE) : Nat → RE
  | 0 => .eps
  | n + 1 => .seq r (repN r n)

/-- `NAME_CF`:
`^([A-ZÀÈÌÒÙ]{2,})\s+([A-Za-zÀÈÌÒÙ]+)\s+\(CF:\s*([A-Z0-9]{16})\)`
(no IGNORECASE); used through `re.match`. -/
def nameCfRE : RE :=
  .seq (.group 1 (.seq (.cls isUpperIt) (.seq (.cls isUpperIt) (.star isUpperIt))))
    (.seq (.plus isPySpace)
      (.seq (.group 2 (.plus isLetterIt))
        (.seq (.plus isPySpace)
          (.seq (.strCS "(CF:".data)
            (.seq (.star isPySpace)
              (.seq (.group 3 (repN (.cls isUpperDigit) 16))
                (.strCS [')'])))))))

/-- `COMUNE_TABLE`:
`Immobili\s+siti\s+nel\s+Comune\s+di\s+(.+?)\s+\(Codice\s+([A-Z0-9]+)\)`
with `re.IGNORECASE`. -/
def comuneRE : RE :=
  .seq (.str "Immobili".data)
    (.seq (.plus isPySpace)
      (.seq (.str "siti".data)
        (.seq (.plus isPySpace)
          (.seq (.str "nel".data)
            (.seq (.plus isPySpace)
              (.seq (.str "Comune".data)
                (.seq (.plus isPySpace)
                  (.seq (.str "di".data)
                    (.seq (.plus isPySpace)
                      (.seq (.group 1 (.plusLazy isDotChar))
                        (.seq (.plus isPySpace)
                          (.seq (.str "(Codice".data)
                            (.seq (.plus isPySpace)
                              (.seq (.group 2 (.plus isAsciiAlnum))
                                (.str [')'])))))))))))))))

/-! ## `VisuraParser._parse_address` -/

/-- The result dictionary of `_parse_address` (keys in source order). -/
structure AddressParsed where
  via_type : Option String
  via_name : Option String
  via_num : Option String
  scala : Option String
  interno : Option String
  piano : Option String
  indirizzo_raw : String
deriving DecidableEq

/-- One iteration of the `for key, pattern in self.ADDRESS_PATTERNS.items()`
loop: search `clean`, return the stripped captured group (`gIdx`) and the
working text with `m.group(0)` replaced by a single space (first
occurrence only). -/
def extractStep (r : RE) (gIdx : Nat) (clean : List Char) :
    Option String × List Char :=
  match reSearch r clean with
  | some m =>
    (some (String.mk (pyStrip (m.group gIdx))), replaceFirst m.g0 [' '] clean)
  | none => (none, clean)

/-- `rest = re.split(r"\s{2,}|Variazione|Annotazione|Aggiornamento", rest, 1)[0]`:
the text before the first occurrence of the split pattern. -/
def splitFirstSeg (r : RE) (cs : List Char) : List Char :=
  match reSearch r cs with
  | some m => cs.take m.start
  | none => cs

/-- Step 2 of `_parse_address`: match the residual text against
`STREET_TYPE_REGEX` and fill `via_type` / `via_name` (with the fallback
branch storing the whole residual text as `via_name`). -/
def streetStep (vnum sca intr pia : Option String) (raw clean : List Char) :
    AddressParsed :=
  match reMatch streetRE clean with
  | some m =>
    { via_type := some (String.mk (pyStrip (m.group 1)))
      via_name := some (String.mk
        (pyStrip (splitFirstSeg streetSplitRE (pyStrip (m.group 2)))))
      via_num := vnum, scala := sca, interno := intr, piano := pia
      indirizzo_raw := String.mk raw }
  | none =>
    { via_type := none
      via_name := some (String.mk clean)
      via_num := vnum, scala := sca, interno := intr, piano := pia
      indirizzo_raw := String.mk raw }

/-- `VisuraParser._parse_address`. -/
def parseAddress (text : String) : AddressParsed :=
  let raw := pyStrip (replaceNL text.data)
  let e1 := extractStep viaNumRE 1 raw
  let e2 := extractStep scalaRE 2 e1.2
  let e3 := extractStep internoRE 2 e2.2
  let e4 := extractStep pianoRE 2 e3.2
  streetStep e1.1 e2.1 e3.1 e4.1 raw (pyStrip e4.2)

/-! ## `VisuraParser._parse_superficie` and `_normalize_number`

`float()` failures (CPython `ValueError`) are modelled with
`Except Unit`; an error propagates exactly where the Python exception
would. Numeric values are modelled exactly as rationals. -/

def digitsToNat (cs : List Char) : Nat :=
  cs.foldl (fun acc c => acc * 10 + (c.toNat - '0'.toNat)) 0

/-- CPython `float(s)` on the strings `_normalize_number` can produce
(characters drawn from digits and `'.'`): defined iff there is at most one
dot and at least one digit, the value being the exact decimal. Any other
character is rejected as well. -/
def pyFloatNum (cs : List Char) : Except Unit ℚ :=
  if !(cs.all (fun c => isAsciiDigit c || c = '.')) then Except.error ()
  else if !(cs.any isAsciiDigit) then Except.error ()
  else
    match splitChar '.' cs with
    | [intPart] => Except.ok (digitsToNat intPart : ℚ)
    | [intPart, fracPart] =>
      Except.ok (mkRat (digitsToNat (intPart ++ fracPart)) (10 ^ fracPart.length))
    | _ => Except.error ()

/-- `VisuraParser._normalize_number`:
`float(numstr.replace(",", ".").replace(" ", ""))`. -/
def normalizeNumber (numstr : List Char) : Except Unit ℚ :=
  pyFloatNum (((numstr.map (fun c => if c = ',' then '.' else c)).filter
    (fun c => !(c = ' '))))

/-- The result dictionary of `_parse_superficie`. -/
structure SuperficieParsed where
  superficie_totale : Option ℚ
  superficie_escluse : Option ℚ
  superficie_raw : String
deriving DecidableEq

/-- `VisuraParser._parse_superficie`: two independent regex searches; a
match whose number string fails `float()` raises (propagated as
`Except.error`). -/
def parseSuperficie (text : String) : Except Unit SuperficieParsed :=
  let txt := replaceNL text.data
  match reSearch totaleRE txt with
  | none =>
    match reSearch escluseRE txt with
    | none => Except.ok ⟨none, none, String.mk txt⟩
    | some m2 =>
      match normalizeNumber (m2.group 1) with
      | Except.error e => Except.error e
      | Except.ok q2 => Except.ok ⟨none, some q2, String.mk txt⟩
  | some m1 =>
    match normalizeNumber (m1.group 1) with
    | Except.error e => Except.error e
    | Except.ok q1 =>
      match reSearch escluseRE txt with
      | none => Except.ok ⟨some q1, none, String.mk txt⟩
      | some m2 =>
        match normalizeNumber (m2.group 1) with
        | Except.error e => Except.error e
        | Except.ok q2 => Except.ok ⟨some q1, some q2, String.mk txt⟩

/-! ## `VisuraParser._process_table`

A Camelot table is modelled as its grid of cell strings
(`table.df`, row-major).  Python `dict` values are heterogeneous: plain
cells are strings, the merged-in address and area components are optional
strings / rationals. `pandas` `IndexError`s (header row or cell index out
of range) are modelled with `Except.error`, as is the `ValueError`
propagating out of `_parse_superficie`. -/

abbrev Grid := List (List String)

def groupedHeaderKeywords : List String :=
  ["DATI IDENTIFICATIVI", "DATI DI CLASSAMENTO", "ALTRE INFORMAZIONI"]

def intabulazioneKeywords : List String :=
  ["DATI ANAGRAFICI", "DIRITTI E ONERI REALI"]

def realEstateColumns : List String :=
  ["Foglio", "Numero", "Sub", "Categoria", "Classe"]

/-- Run of non-alphanumeric characters → one `_`
(the `re.sub(r"[^A-Za-z0-9]+", "_", header)` call); the flag records
whether the previous character was part of such a run. -/
def squashNonAlnumAux : Bool → List Char → List Char
  | _, [] => []
  | prevNon, c :: cs =>
    if isAsciiAlnum c then c :: squashNonAlnumAux false cs
    else if prevNon then squashNonAlnumAux true cs
    else '_' :: squashNonAlnumAux true cs

/-- `VisuraParser._normalize_header`: squash non-alphanumeric runs to `_`,
strip `_` from both ends, lower-case. -/
def normalizeHeader (s : String) : String :=
  String.mk ((stripBy (fun c => c = '_') (squashNonAlnumAux false s.data)).map
    charLower)

/-- Step 3 of `_process_table`:
`[h.replace("\n", " ").strip() for h in header]`. -/
def cleanHeaderCells (hrow : List String) : List String :=
  hrow.map (fun h => String.mk (pyStrip (replaceNL h.data)))

/-- Step 1: does the first grid row's joined upper-cased text contain a
grouped-header keyword? -/
def isGrouped (row0 : List String) : Bool :=
  groupedHeaderKeywords.any (fun k => strContainsS (pyUpperS (joinSpace row0)) k)

/-- Step 4: does the cleaned header's joined upper-cased text contain an
`INTABULAZIONE_KEYWORDS` marker? -/
def hasIntab (hrow : List String) : Bool :=
  intabulazioneKeywords.any
    (fun k => strContainsS (pyUpperS (joinSpace (cleanHeaderCells hrow))) k)

/-- Step 6 of `_process_table`: positional header fixes (empty column 0 →
`table_num_immobile`, empty column 8 → `classe`, merged
`Classe Consistenza` → `consistenza`). -/
def fixHeaderAux : Nat → List String → List String
  | _, [] => []
  | idx, col :: rest =>
    let colClean := String.mk (pyStrip (replaceNL col.data))
    (if colClean = "" && idx = 0 then "table_num_immobile"
     else if colClean = "" && idx = 8 then "classe"
     else if colClean = "Classe Consistenza" then "consistenza"
     else colClean) :: fixHeaderAux (idx + 1) rest

def fixHeader (header : List String) : List String := fixHeaderAux 0 header

/-- A Python-dict value in a row dictionary. -/
inductive Val where
  | s : String → Val
  | os : Option String → Val
  | oq : Option ℚ → Val
deriving DecidableEq

/-- A row dictionary: association list in insertion order with unique keys
(Python 3.7+ `dict`). -/
abbrev Row := List (String × Val)

/-- Python `d[k] = v`: update in place if the key exists (keeping its
position), else append at the end (insertion order). -/
def dictSet : Row → String → Val → Row
  | [], k, v => [(k, v)]
  | p :: d, k, v => if p.1 = k then (k, v) :: d else p :: dictSet d k v

/-- Python `d.get(k)` / `d[k]`. -/
def dictGet (d : Row) (k : String) : Option Val :=
  (d.find? (fun p => p.1 = k)).map (fun p => p.2)

/-- Python `d.update(kvs)` for a literal dict `kvs` (keys in source order). -/
def dictUpdate (d : Row) (kvs : List (String × Val)) : Row :=
  kvs.foldl (fun acc kv => dictSet acc kv.1 kv.2) d

/-- The key/value pairs contributed by `row_dict.update(parsed_addr)`. -/
def addrRow (a : AddressParsed) : List (String × Val) :=
  [("via_type", Val.os a.via_type), ("via_name", Val.os a.via_name),
   ("via_num", Val.os a.via_num), ("scala", Val.os a.scala),
   ("interno", Val.os a.interno), ("piano", Val.os a.piano),
   ("indirizzo_raw", Val.s a.indirizzo_raw)]

/-- The key/value pairs contributed by `row_dict.update(parsed_superficie)`. -/
def supRow (sp : SuperficieParsed) : List (String × Val) :=
  [("superficie_totale", Val.oq sp.superficie_totale),
   ("superficie_escluse", Val.oq sp.superficie_escluse),
   ("superficie_raw", Val.s sp.superficie_raw)]

/-- The inner loop of step 7: assign each cell to its normalized column
name, routing columns whose name contains `"indirizzo"` through the
address parser and the column `"superficie_catastale"` through the area
parser. -/
def buildRowAux (cells : List String) : List String → Nat → Row → Except Unit Row
  | [], _, acc => Except.ok acc
  | colName :: restCols, idx, acc =>
    match cells.get? idx with
    | none => Except.error ()
    | some cell =>
      let rawValue := String.mk (pyStrip cell.data)
      if strContainsS colName "indirizzo" then
        buildRowAux cells restCols (idx + 1)
          (dictUpdate acc (addrRow (parseAddress rawValue)))
      else if colName = "superficie_catastale" then
        match parseSuperficie rawValue with
        | Except.error e => Except.error e
        | Except.ok sp =>
          buildRowAux cells restCols (idx + 1) (dictUpdate acc (supRow sp))
      else
        buildRowAux cells restCols (idx + 1) (dictSet acc colName (Val.s rawValue))

/-- Build one row dictionary from the normalized header and a data row. -/
def buildRow (header cells : List String) : Except Unit Row :=
  buildRowAux cells header 0 []

/-- Step 7 over all data rows (in order). -/
def rowsFrom (header : List String) : List (List String) → Except Unit (List Row)
  | [] => Except.ok []
  | r :: rs =>
    match buildRow header r with
    | Except.error e => Except.error e
    | Except.ok row =>
      match rowsFrom header rs with
      | Except.error e => Except.error e
      | Except.ok rows => Except.ok (row :: rows)

/-- `_process_table` on a non-empty grid whose first row is `row0`. -/
def processTableNE (row0 : List String) (df : Grid) :
    Except Unit (Option (List Row)) :=
  let headerRow := if isGrouped row0 then 1 else 0
  let dataStart := if isGrouped row0 then 2 else 1
  match df.get? headerRow with
  | none => Except.error ()
  | some hrow =>
    if hasIntab hrow then Except.ok none
    else if !(realEstateColumns.any (fun c => (cleanHeaderCells hrow).contains c))
    then Except.ok none
    else
      Except.map some
        (rowsFrom ((fixHeader (cleanHeaderCells hrow)).map normalizeHeader)
          (df.drop dataStart))

/-- `VisuraParser._process_table`: `None` (no contribution) for empty,
ownership and non-property tables, otherwise the extracted rows. -/
def processTable (df : Grid) : Except Unit (Option (List Row)) :=
  match df with
  | [] => Except.ok none
  | row0 :: _ => processTableNE row0 df

/-! ## `VisuraParser.parse`

The externally-acquired objects are abstracted by their observable data:
`fitz.open` is an `Except` (the document or a failure), a page carries the
text used for comune extraction and the outcome of the
`camelot.read_pdf` call for that page (a list of table grids, or an
exception), and the first page's text blocks are carried on the document
(the source only reads blocks from `doc[0]`).  `logger.warning` /
`logger.exception` calls are modelled as emitted diagnostics. -/

inductive Diag where
  | openError
  | nameMissing
  | camelotError (page : Nat)
deriving DecidableEq

structure NameData where
  locatore_surname : Option String
  locatore_name : Option String
  cf : Option String
deriving DecidableEq

structure Page where
  text : String
  tables : Except Unit (List Grid)

structure PDoc where
  firstPageBlocks : List String
  pages : List Page

/-- Scan stripped lines for the first `NAME_CF` match
(the line loop of `_extract_name_cf`). -/
def scanLinesName : List (List Char) → Option (List Char × List Char × List Char)
  | [] => none
  | l :: ls =>
    match reMatch nameCfRE (pyStrip l) with
    | some m => some (m.group 1, m.group 2, m.group 3)
    | none => scanLinesName ls

/-- `VisuraParser._extract_name_cf`: first match over the lines of the
first page's blocks, in document order; a missing match yields all-`None`
fields plus a warning diagnostic. -/
def extractNameCf (blocks : List String) : NameData × List Diag :=
  match scanLinesName (blocks.flatMap pySplitlines) with
  | some (g1, g2, g3) =>
    (⟨some (String.mk g1), some (String.mk g2), some (String.mk g3)⟩, [])
  | none => (⟨none, none, none⟩, [Diag.nameMissing])

/-- Scan stripped lines for the first `COMUNE_TABLE` match. -/
def scanLinesComune : List (List Char) → Option (List Char × List Char)
  | [] => none
  | l :: ls =>
    match reSearch comuneRE (pyStrip l) with
    | some m => some (m.group 1, m.group 2)
    | none => scanLinesComune ls

/-- `VisuraParser._extract_comune_for_page`. -/
def extractComune (text : String) : Option String × Option String :=
  match scanLinesComune (pySplitlines text) with
  | some (g1, g2) => (some (String.mk g1), some (String.mk g2))
  | none => (none, none)

/-- The `immobile.update({...})` enrichment of one record with owner and
page context (keys in source order). -/
def enrichRow (nd : NameData) (comune : Option String × Option String)
    (row : Row) : Row :=
  dictUpdate row
    [("locatore_surname", Val.os nd.locatore_surname),
     ("locatore_name", Val.os nd.locatore_name),
     ("locatore_codice_fiscale", Val.os nd.cf),
     ("immobile_comune", Val.os comune.1),
     ("immobile_comune_code", Val.os comune.2)]

/-- The `for table in tables:` loop of one page: a `None` classification
contributes nothing, extracted rows are enriched and appended; an
exception from `_process_table` propagates. -/
def processGrids (enrich : Row → Row) : List Grid → Except Unit (List Row)
  | [] => Except.ok []
  | g :: gs =>
    match processTable g with
    | Except.error e => Except.error e
    | Except.ok parsed =>
      match processGrids enrich gs with
      | Except.error e => Except.error e
      | Except.ok rest =>
        Except.ok ((match parsed with
          | none => []
          | some rows => rows.map enrich) ++ rest)

/-- The page loop of `parse` (`page_idx` is 0-based; the logged page
number is 1-based).  A Camelot failure is logged and the page skipped;
an exception from table processing propagates. -/
def pagesLoop (nd : NameData) : Nat → List Page → List Diag × Except Unit (List Row)
  | _, [] => ([], Except.ok [])
  | i, p :: ps =>
    match p.tables with
    | Except.error _ =>
      let r := pagesLoop nd (i + 1) ps
      (Diag.camelotError (i + 1) :: r.1, r.2)
    | Except.ok grids =>
      match processGrids (enrichRow nd (extractComune p.text)) grids with
      | Except.error e => ([], Except.error e)
      | Except.ok recs =>
        let r := pagesLoop nd (i + 1) ps
        (r.1, Except.map (fun l => recs ++ l) r.2)

/-- `VisuraParser.parse`.  The argument is the outcome of `fitz.open`:
an unopenable document is logged and yields an empty record list; an
exception escaping the page loop propagates to the caller (the `finally`
block only closes the document). -/
def parse (openResult : Except Unit PDoc) : List Diag × Except Unit (List Row) :=
  match openResult with
  | Except.error _ => ([Diag.openError], Except.ok [])
  | Except.ok doc =>
    let nd := extractNameCf doc.firstPageBlocks
    let r := pagesLoop nd.1 0 doc.pages
    (nd.2 ++ r.1, r.2)

/-- Did an `Except` computation succeed? -/
def exceptOk : Except ε α → Bool
  | Except.ok _ => true
  | Except.error _ => false

def exceptToOption : Except ε α → Option α
  | Except.ok a => some a
  | Except.error _ => none

/-- Every grid Camelot delivered for this page processes without an
exception (pages whose Camelot call failed impose nothing). -/
def tablesOk (p : Page) : Bool :=
  match p.tables with
  | Except.error _ => true
  | Except.ok gs => gs.all (fun g => exceptOk (processTable g))

def docTablesOk (d : PDoc) : Bool := d.pages.all tablesOk

/-! ## Predicates used by the claim statements -/

/-- The cell text contains no newline character. -/
def noNewline (s : String) : Bool := s.data.all (fun c => !(c = '\n'))

def headOk (p : Char → Bool) (cs : List Char) : Bool :=
  match cs with
  | [] => true
  | c :: _ => !(p c)

/-- The cell text neither starts nor ends with whitespace. -/
def noEdgeSpace (s : String) : Bool :=
  headOk isPySpace s.data && headOk isPySpace s.data.reverse

/-- What the claim calls "the float of the first Totale: number with
decimal comma converted to dot and interior spaces stripped". -/
def totExpected (txt : List Char) : Option ℚ :=
  match reSearch totaleRE txt with
  | none => none
  | some m => exceptToOption (normalizeNumber (m.group 1))

/-- Likewise for the excluding-uncovered-areas pattern. -/
def escExpected (txt : List Char) : Option ℚ :=
  match reSearch escluseRE txt with
  | none => none
  | some m => exceptToOption (normalizeNumber (m.group 1))

/-- The dictionary keys written by the address / area routing rather than
by a plain column assignment. -/
def specialRowKeys : List String :=
  ["via_type", "via_name", "via_num", "scala", "interno", "piano",
   "indirizzo_raw", "superficie_totale", "superficie_escluse",
   "superficie_raw"]

/-! ## Helper lemmas -/

theorem replaceNL_eq_self {cs : List Char}
    (h : cs.all (fun c => !(c = '\n')) = true) : replaceNL cs = cs := by
  induction cs with
  | nil => rfl
  | cons c cs ih =>
    simp only [List.all_cons, Bool.and_eq_true, Bool.not_eq_true',
      decide_eq_false_iff_not] at h
    simp only [replaceNL, List.map_cons, if_neg h.1]
    exact congrArg _ (ih (by simpa [replaceNL] using h.2))

theorem dropWhile_eq_self {p : Char → Bool} {cs : List Char}
    (h : headOk p cs = true) : cs.dropWhile p = cs := by
  cases cs with
  | nil => rfl
  | cons c cs =>
    simp only [headOk, Bool.not_eq_true'] at h
    simp [List.dropWhile_cons, h]

theorem stripBy_eq_self {p : Char → Bool} {cs : List Char}
    (h1 : headOk p cs = true) (h2 : headOk p cs.reverse = true) :
    stripBy p cs = cs := by
  unfold stripBy
  rw [dropWhile_eq_self h1, dropWhile_eq_self h2, List.reverse_reverse]

theorem streetStep_indirizzo_raw (v s i p : Option String) (raw c : List Char) :
    (streetStep v s i p raw c).indirizzo_raw = String.mk raw := by
  unfold streetStep
  split <;> rfl

theorem streetStep_via_name_isSome (v s i p : Option String) (raw c : List Char) :
    ((streetStep v s i p raw c).via_name).isSome = true := by
  unfold streetStep
  split <;> rfl

theorem parseAddress_indirizzo_raw (t : String) :
    (parseAddress t).indirizzo_raw = String.mk (pyStrip (replaceNL t.data)) := by
  unfold parseAddress
  apply streetStep_indirizzo_raw

theorem parseSuperficie_raw {t : String} {sp : SuperficieParsed}
    (h : parseSuperficie t = Except.ok sp) :
    sp.superficie_raw = String.mk (replaceNL t.data) := by
  simp only [parseSuperficie] at h
  rcases h1 : reSearch totaleRE (replaceNL t.data) with _ | m1 <;> simp only [h1] at h
  · rcases h2 : reSearch escluseRE (replaceNL t.data) with _ | m2 <;> simp only [h2] at h
    · cases h; rfl
    · rcases h3 : normalizeNumber (m2.group 1) with e | q2 <;> simp only [h3] at h
      · exact Except.noConfusion h
      · cases h; rfl
  · rcases h2 : normalizeNumber (m1.group 1) with e | q1 <;> simp only [h2] at h
    · exact Except.noConfusion h
    · rcases h3 : reSearch escluseRE (replaceNL t.data) with _ | m2 <;> simp only [h3] at h
      · cases h; rfl
      · rcases h4 : normalizeNumber (m2.group 1) with e | q2 <;> simp only [h4] at h
        · exact Except.noConfusion h
        · cases h; rfl

theorem dictGet_dictSet_self (d : Row) (k : String) (v : Val) :
    dictGet (dictSet d k v) k = some v := by
  induction d with
  | nil => simp [dictSet, dictGet, List.find?]
  | cons p d ih =>
    by_cases h : p.1 = k
    · simp [dictSet, dictGet, h, List.find?]
    · simp only [dictSet, if_neg h]
      simpa [dictGet, List.find?, h] using ih

theorem dictGet_dictSet_other (d : Row) {k k2 : String} (v : Val)
    (h : k2 ≠ k) : dictGet (dictSet d k2 v) k = dictGet d k := by
  induction d with
  | nil => simp [dictSet, dictGet, List.find?, h]
  | cons p d ih =>
    by_cases hp : p.1 = k2
    · simp [dictSet, dictGet, hp, List.find?, h, hp ▸ (hp ▸ h : k2 ≠ k)]
    · simp only [dictSet, if_neg hp]
      by_cases hk : p.1 = k
      · simp [dictGet, List.find?, hk]
      · simpa [dictGet, List.find?, hk] using ih

theorem dictGet_dictUpdate_other (kvs : List (String × Val)) (d : Row)
    {k : String} (h : ∀ kv ∈ kvs, kv.1 ≠ k) :
    dictGet (dictUpdate d kvs) k = dictGet d k := by
  induction kvs generalizing d with
  | nil => rfl
  | cons kv kvs ih =>
    simp only [dictUpdate, List.foldl_cons]
    rw [show List.foldl (fun acc kv => dictSet acc kv.1 kv.2) (dictSet d kv.1 kv.2) kvs
        = dictUpdate (dictSet d kv.1 kv.2) kvs from rfl]
    rw [ih _ (fun x hx => h x (List.mem_cons_of_mem _ hx))]
    exact dictGet_dictSet_other d _ (h kv (List.mem_cons_self _ _))

theorem addrRow_keys_special (a : AddressParsed) :
    ∀ kv ∈ addrRow a, kv.1 ∈ specialRowKeys := by
  intro kv hkv
  simp only [addrRow, List.mem_cons, List.not_mem_nil, or_false] at hkv
  rcases hkv with h | h | h | h | h | h | h <;> subst h <;> simp [specialRowKeys]

theorem supRow_keys_special (sp : SuperficieParsed) :
    ∀ kv ∈ supRow sp, kv.1 ∈ specialRowKeys := by
  intro kv hkv
  simp only [supRow, List.mem_cons, List.not_mem_nil, or_false] at hkv
  rcases hkv with h | h | h <;> subst h <;> simp [specialRowKeys]

/-- Processing a later column never touches a key that is neither that
column's own (normalized) name nor one of the routed keys. -/
theorem buildRowAux_preserves (cells : List String) (cols : List String)
    (idx : Nat) (acc : Row) {n : String} (row : Row)
    (hspec : n ∉ specialRowKeys) (hcols : ∀ c ∈ cols, c ≠ n)
    (h : buildRowAux cells cols idx acc = Except.ok row) :
    dictGet row n = dictGet acc n := by
  induction cols generalizing idx acc with
  | nil => cases h; rfl
  | cons c cols ih =>
    have hrest : ∀ x ∈ cols, x ≠ n :=
      fun x hx => hcols x (List.mem_cons_of_mem _ hx)
    rcases hc : cells.get? idx with _ | cell <;>
      simp only [buildRowAux, hc] at h
    · exact Except.noConfusion h
    · by_cases hin : strContainsS c "indirizzo" = true
      · rw [if_pos hin] at h
        rw [ih _ _ hrest h]
        exact dictGet_dictUpdate_other _ _
          (fun kv hkv heq => hspec (heq ▸ addrRow_keys_special _ kv hkv))
      · rw [if_neg hin] at h
        by_cases hsup : c = "superficie_catastale"
        · rw [if_pos hsup] at h
          rcases hps : parseSuperficie (String.mk (pyStrip cell.data)) with e | sp <;>
            rw [hps] at h
          · exact Except.noConfusion h
          · rw [ih _ _ hrest h]
            exact dictGet_dictUpdate_other _ _
              (fun kv hkv heq => hspec (heq ▸ supRow_keys_special _ kv hkv))
        · rw [if_neg hsup] at h
          rw [ih _ _ hrest h]
          exact dictGet_dictSet_other _ _ (hcols c (List.mem_cons_self _ _))

theorem exists_get?_of_mem {α : Type _} {l : List α} {c : α} (h : c ∈ l) :
    ∃ k, l.get? k = some c := by
  induction l with
  | nil => cases h
  | cons x l ih =>
    rcases List.mem_cons.mp h with rfl | h2
    · exact ⟨0, rfl⟩
    · obtain ⟨k, hk⟩ := ih h2
      exact ⟨k + 1, hk⟩

/-- If column `j` is the right-most column named `n`, and `n` is a plain
column name (not routed, not one of the routed keys), then the built row
holds exactly the stripped cell of column `j` under `n`. -/
theorem buildRowAux_last_col (cells : List String) (cols : List String)
    {n : String} (hspec : n ∉ specialRowKeys)
    (hin : strContainsS n "indirizzo" = false)
    (hsup : n ≠ "superficie_catastale") :
    ∀ (j idx : Nat) (acc : Row) (row : Row),
    cols.get? j = some n →
    (∀ k, j < k → cols.get? k ≠ some n) →
    buildRowAux cells cols idx acc = Except.ok row →
    ∃ cell, cells.get? (idx + j) = some cell ∧
      dictGet row n = some (Val.s (String.mk (pyStrip cell.data))) := by
  induction cols with
  | nil => intro j idx acc row hj; exact absurd hj (by simp)
  | cons c cols ih =>
    intro j idx acc row hj hlast h
    cases j with
    | zero =>
      have hcn : c = n := by simpa using hj
      rw [hcn] at h
      have hrest : ∀ x ∈ cols, x ≠ n := by
        intro x hx heq
        obtain ⟨k, hk⟩ := exists_get?_of_mem hx
        exact hlast (k + 1) (Nat.succ_pos k) (by simpa [heq] using hk)
      rcases hc : cells.get? idx with _ | cell <;>
        simp only [buildRowAux, hc] at h
      · exact Except.noConfusion h
      · rw [if_neg (by simp [hin]), if_neg hsup] at h
        refine ⟨cell, by simpa using hc, ?_⟩
        rw [buildRowAux_preserves cells cols (idx + 1) _ row hspec hrest h]
        exact dictGet_dictSet_self acc n _
    | succ k =>
      have hj2 : cols.get? k = some n := hj
      have hlast2 : ∀ k2, k < k2 → cols.get? k2 ≠ some n := by
        intro k2 hk2
        exact hlast (k2 + 1) (Nat.succ_lt_succ hk2)
      have harith : idx + (k + 1) = (idx + 1) + k := by omega
      rcases hc : cells.get? idx with _ | cell <;>
        simp only [buildRowAux, hc] at h
      · exact Except.noConfusion h
      · by_cases hcin : strContainsS c "indirizzo" = true
        · rw [if_pos hcin] at h
          obtain ⟨cell2, hcell2, hget⟩ := ih k (idx + 1) _ row hj2 hlast2 h
          exact ⟨cell2, by rw [harith]; exact hcell2, hget⟩
        · rw [if_neg hcin] at h
          by_cases hcsup : c = "superficie_catastale"
          · rw [if_pos hcsup] at h
            rcases hps : parseSuperficie (String.mk (pyStrip cell.data)) with e | sp <;>
              rw [hps] at h
            · exact Except.noConfusion h
            · obtain ⟨cell2, hcell2, hget⟩ := ih k (idx + 1) _ row hj2 hlast2 h
              exact ⟨cell2, by rw [harith]; exact hcell2, hget⟩
          · rw [if_neg hcsup] at h
            obtain ⟨cell2, hcell2, hget⟩ := ih k (idx + 1) _ row hj2 hlast2 h
            exact ⟨cell2, by rw [harith]; exact hcell2, hget⟩

theorem exceptOk_map (f : α → β) (r : Except ε α) :
    exceptOk (Except.map f r) = exceptOk r := by
  cases r <;> rfl

theorem processGrids_ok (enrich : Row → Row) (gs : List Grid)
    (h : gs.all (fun g => exceptOk (processTable g)) = true) :
    exceptOk (processGrids enrich gs) = true := by
  induction gs with
  | nil => rfl
  | cons g gs ih =>
    simp only [List.all_cons, Bool.and_eq_true] at h
    simp only [processGrids]
    rcases hp : processTable g with e | parsed
    · rw [hp] at h; exact absurd h.1 (by simp [exceptOk])
    · have h2 := ih h.2
      rcases hr : processGrids enrich gs with e | rest
      · rw [hr] at h2; exact absurd h2 (by simp [exceptOk])
      · rfl

theorem pagesLoop_ok (nd : NameData) (ps : List Page) :
    ∀ i, ps.all tablesOk = true → exceptOk (pagesLoop nd i ps).2 = true := by
  induction ps with
  | nil => intro i _; rfl
  | cons p ps ih =>
    intro i h
    simp only [List.all_cons, Bool.and_eq_true] at h
    obtain ⟨h1, h2⟩ := h
    obtain ⟨ptext, ptables⟩ := p
    rcases ptables with e | grids
    · simpa only [pagesLoop] using ih (i + 1) h2
    · have hok : grids.all (fun g => exceptOk (processTable g)) = true := by
        simpa only [tablesOk] using h1
      have hpg := processGrids_ok (enrichRow nd (extractComune ptext)) grids hok
      simp only [pagesLoop]
      rcases hg : processGrids (enrichRow nd (extractComune ptext)) grids with e | recs
      · rw [hg] at hpg; exact absurd hpg (by simp [exceptOk])
      · show exceptOk (Except.map (fun l => recs ++ l) (pagesLoop nd (i + 1) ps).2) = true
        rw [exceptOk_map]
        exact ih (i + 1) h2

/-! ## Concrete documents used by the C5 theorems -/

/-- A document whose only page has one property table whose
`Superficie Catastale` cell carries a number `float()` rejects. -/
def badAreaDoc : PDoc :=
  ⟨[], [⟨"", Except.ok [[["Foglio", "Superficie Catastale"],
    ["12", "Totale: 1.2.3"]]]⟩]⟩

/-- A document whose only page has one well-formed property table. -/
def goodDoc : PDoc :=
  ⟨[], [⟨"", Except.ok [[["Foglio", "Numero"], ["1", "2"]]]⟩]⟩

/-! ## Claim theorems -/

/-- C1: the claim says that for inputs whose civic-number marker is the
literal "SNC" the parser leaves `via_num` absent.  Evaluating
`_parse_address` at the failing input "VIA DEI MILLE SNC" shows the code
stores the literal string "SNC" in `via_num` instead (the `|SNC`
alternative of the via_num pattern matches, and the loop assigns the
captured group unconditionally). -/
theorem snc_literal_stored :
    parseAddress "VIA DEI MILLE SNC" =
    { via_type := some "VIA", via_name := some "DEI MILLE",
      via_num := some "SNC", scala := none, interno := none, piano := none,
      indirizzo_raw := "VIA DEI MILLE SNC" } := by decide

/-- C2: the claim says "STRADA STATALE 16 250" parses to
`via_type="STRADA", via_name="STATALE 16", via_num="250"`.  Evaluating
`_parse_address` shows the code instead takes the embedded "16" as the
civic number (the via_num search matches the left-most digit run), and
the double space left by its removal truncates the street name to
"STATALE", discarding "250". -/
theorem embedded_digits_eaten :
    parseAddress "STRADA STATALE 16 250" =
    { via_type := some "STRADA", via_name := some "STATALE",
      via_num := some "16", scala := none, interno := none, piano := none,
      indirizzo_raw := "STRADA STATALE 16 250" } := by decide

/-- C3: the claim says "PIAZZA GARIBALDI n. 2" parses with
`via_type="PIAZZA"`, never misread through the floor-marker "P." pattern.
Evaluating `_parse_address` shows the piano pattern `(PIANO|P\.?)\s*(...)`
does match the leading "P" of "PIAZZA", storing `piano="IAZZA"` and
deleting "PIAZZA" from the working text, so no street type is found. -/
theorem piazza_misread_as_piano :
    parseAddress "PIAZZA GARIBALDI n. 2" =
    { via_type := none, via_name := some "GARIBALDI", via_num := some "2",
      scala := none, interno := none, piano := some "IAZZA",
      indirizzo_raw := "PIAZZA GARIBALDI n. 2" } := by decide

/-- C4 (counterexample): `indirizzo_raw` is not byte-for-byte the original
cell text when the cell contains a newline — `_parse_address` first runs
`text.replace("\n", " ").strip()`. -/
theorem raw_not_bytewise :
    ¬ ((parseAddress "VIA ROMA\n10").indirizzo_raw = "VIA ROMA\n10") := by
  decide

/-- C4 (amended): `indirizzo_raw` equals the original cell text with
newlines collapsed to spaces and surrounding whitespace stripped, and
`superficie_raw` equals it with newlines collapsed; hence both equal the
cell text byte-for-byte exactly on cells with no newline and (for the
address) no leading or trailing whitespace. -/
theorem raw_preserved_modulo_newlines (t : String)
    (h1 : noNewline t = true) (h2 : noEdgeSpace t = true) :
    (parseAddress t).indirizzo_raw = t ∧
    ∀ sp, parseSuperficie t = Except.ok sp → sp.superficie_raw = t := by
  have hnl : replaceNL t.data = t.data := replaceNL_eq_self h1
  have h2' := h2
  rw [noEdgeSpace, Bool.and_eq_true] at h2'
  have hstrip : pyStrip t.data = t.data := stripBy_eq_self h2'.1 h2'.2
  constructor
  · rw [parseAddress_indirizzo_raw, hnl, hstrip]
  · intro sp hsp
    rw [parseSuperficie_raw hsp, hnl]

theorem raw_preserved_modulo_newlines_witness :
    noNewline "VIA ROMA 10" = true ∧ noEdgeSpace "VIA ROMA 10" = true ∧
    (parseAddress "VIA ROMA 10").indirizzo_raw = "VIA ROMA 10" ∧
    (⟨none, none, "VIA ROMA 10"⟩ : SuperficieParsed).superficie_raw
      = "VIA ROMA 10" :=
  ⟨by decide, by decide,
   (raw_preserved_modulo_newlines "VIA ROMA 10" (by decide) (by decide)).1,
   (raw_preserved_modulo_newlines "VIA ROMA 10" (by decide) (by decide)).2
     ⟨none, none, "VIA ROMA 10"⟩ (by rfl)⟩

/-- C5 (counterexample): `parse` does raise to the caller on an openable
document: a property table whose area cell reads "Totale: 1.2.3" makes
`_normalize_number`'s `float()` raise `ValueError`, which escapes
`parse` (its try/except guards only `fitz.open` and `camelot.read_pdf`). -/
theorem area_valueerror_escapes_parse :
    (parse (Except.ok badAreaDoc)).2 = Except.error () := by rfl

/-- C5 (amended): every failure below the top-level unopenable-document
case — per-page Camelot failure, missing owner identity, missing comune
line, unmatched address or area fields — degrades to partial data,
provided no table row raises while being processed (the `ValueError`
from a malformed area number is the exception that propagates): if every
delivered grid processes without an exception, `parse` returns normally. -/
theorem parse_ok_of_tables_ok (doc : PDoc) (h : docTablesOk doc = true) :
    exceptOk (parse (Except.ok doc)).2 = true :=
  pagesLoop_ok (extractNameCf doc.firstPageBlocks).1 doc.pages 0 h

theorem parse_ok_of_tables_ok_witness :
    docTablesOk goodDoc = true ∧
    exceptOk (parse (Except.ok goodDoc)).2 = true :=
  ⟨by decide, parse_ok_of_tables_ok goodDoc (by decide)⟩

/-- C6: a table whose header row text contains a personal-registry marker
(`DATI ANAGRAFICI` / `DIRITTI E ONERI REALI`) contributes zero rows —
`_process_table` returns `None` — even when the same header also contains
a cadastral column name: the ownership check (step 4) precedes the
property-table acceptance gate (step 5). -/
theorem ownership_marker_rejects_table (df : Grid) (row0 : List String)
    (rest : List (List String)) (hrow : List String)
    (hdf : df = row0 :: rest)
    (hget : df.get? (if isGrouped row0 then 1 else 0) = some hrow)
    (hint : hasIntab hrow = true) :
    processTable df = Except.ok none := by
  subst hdf
  show processTableNE row0 (row0 :: rest) = Except.ok none
  simp only [processTableNE]
  rw [hget]
  simp [hint]

theorem ownership_marker_rejects_table_witness :
    ([["Foglio", "DATI ANAGRAFICI"], ["1", "2"]] : Grid).get?
      (if isGrouped ["Foglio", "DATI ANAGRAFICI"] then 1 else 0)
      = some ["Foglio", "DATI ANAGRAFICI"] ∧
    hasIntab ["Foglio", "DATI ANAGRAFICI"] = true ∧
    processTable [["Foglio", "DATI ANAGRAFICI"], ["1", "2"]] = Except.ok none :=
  ⟨by decide, by decide,
   ownership_marker_rejects_table _ ["Foglio", "DATI ANAGRAFICI"] [["1", "2"]]
     ["Foglio", "DATI ANAGRAFICI"] rfl (by decide) (by decide)⟩

/-- C7: an unopenable document makes `parse` return the empty record
list, without raising, and the failure is recorded as a diagnostic
(`logger.exception`) rather than silently swallowed. -/
theorem unopenable_returns_empty_with_diag :
    parse (Except.error ()) = ([Diag.openError], Except.ok []) := rfl

/-- C8 (counterexample): the claim quantifies over every area cell text,
but on "Totale: 1.2.3" the matched number fails `float()` conversion and
`_parse_superficie` raises instead of returning fields at all. -/
theorem superficie_raises_on_bad_number :
    parseSuperficie "Totale: 1.2.3" = Except.error () := by rfl

/-- C8 (amended): whenever `_parse_superficie` returns (i.e. each matched
number string converts), `superficie_totale` is the float of the first
"Totale:" number with decimal commas turned into dots and spaces removed,
`superficie_escluse` likewise for the excluding-uncovered-areas pattern,
and each field is `None` exactly when its regex search finds no match. -/
theorem superficie_fields_from_searches (t : String) (sp : SuperficieParsed)
    (h : parseSuperficie t = Except.ok sp) :
    sp.superficie_totale = totExpected (replaceNL t.data) ∧
    sp.superficie_escluse = escExpected (replaceNL t.data) ∧
    (sp.superficie_totale = none ↔ reSearch totaleRE (replaceNL t.data) = none) ∧
    (sp.superficie_escluse = none ↔ reSearch escluseRE (replaceNL t.data) = none) := by
  simp only [parseSuperficie] at h
  rcases h1 : reSearch totaleRE (replaceNL t.data) with _ | m1 <;> simp only [h1] at h
  · rcases h2 : reSearch escluseRE (replaceNL t.data) with _ | m2 <;> simp only [h2] at h
    · cases h
      simp [totExpected, escExpected, h1, h2]
    · rcases h3 : normalizeNumber (m2.group 1) with e | q2 <;> simp only [h3] at h
      · exact Except.noConfusion h
      · cases h
        simp [totExpected, escExpected, exceptToOption, h1, h2, h3]
  · rcases h2 : normalizeNumber (m1.group 1) with e | q1 <;> simp only [h2] at h
    · exact Except.noConfusion h
    · rcases h3 : reSearch escluseRE (replaceNL t.data) with _ | m2 <;> simp only [h3] at h
      · cases h
        simp [totExpected, escExpected, exceptToOption, h1, h2, h3]
      · rcases h4 : normalizeNumber (m2.group 1) with e | q2 <;> simp only [h4] at h
        · exact Except.noConfusion h
        · cases h
          simp [totExpected, escExpected, exceptToOption, h1, h2, h3, h4]

theorem superficie_fields_from_searches_witness :
    parseSuperficie "Totale: 12,5"
      = Except.ok ⟨some (mkRat 125 10), none, "Totale: 12,5"⟩ ∧
    ((⟨some (mkRat 125 10), none, "Totale: 12,5"⟩ : SuperficieParsed).superficie_totale
       = totExpected (replaceNL "Totale: 12,5".data) ∧
     (⟨some (mkRat 125 10), none, "Totale: 12,5"⟩ : SuperficieParsed).superficie_escluse
       = escExpected (replaceNL "Totale: 12,5".data) ∧
     ((⟨some (mkRat 125 10), none, "Totale: 12,5"⟩ : SuperficieParsed).superficie_totale = none
        ↔ reSearch totaleRE (replaceNL "Totale: 12,5".data) = none) ∧
     ((⟨some (mkRat 125 10), none, "Totale: 12,5"⟩ : SuperficieParsed).superficie_escluse = none
        ↔ reSearch escluseRE (replaceNL "Totale: 12,5".data) = none)) :=
  ⟨by rfl, superficie_fields_from_searches "Totale: 12,5" _ (by rfl)⟩

/-- C9: `via_name` is the one address component never left absent — the
street-type branch stores the truncated remainder and the fallback branch
stores the entire residual text — while on the empty input every other
component is indeed absent. -/
theorem via_name_never_none :
    (∀ t : String, ((parseAddress t).via_name).isSome = true) ∧
    parseAddress "" =
    { via_type := none, via_name := some "",
      via_num := none, scala := none, interno := none, piano := none,
      indirizzo_raw := "" } := by
  constructor
  · intro t
    unfold parseAddress
    exact streetStep_via_name_isSome _ _ _ _ _ _
  · decide

/-- C10: when several header cells normalize to the same column name, row
construction keeps only the right-most column's value: cells are assigned
into a dict keyed by normalized name, so a later column overwrites an
earlier one (stated for a plain column name, i.e. one not routed through
the address or area parsers and distinct from the keys those write). -/
theorem rightmost_duplicate_column_wins (header cells : List String)
    (n : String) (i j : Nat) (row : Row)
    (_hij : i < j)
    (_hi : header.get? i = some n)
    (hj : header.get? j = some n)
    (hlast : ∀ k, j < k → header.get? k ≠ some n)
    (hspec : n ∉ specialRowKeys)
    (hin : strContainsS n "indirizzo" = false)
    (hsup : n ≠ "superficie_catastale")
    (h : buildRow header cells = Except.ok row) :
    ∃ cell, cells.get? j = some cell ∧
      dictGet row n = some (Val.s (String.mk (pyStrip cell.data))) := by
  have := buildRowAux_last_col cells header hspec hin hsup j 0 [] row hj hlast h
  simpa using this

theorem rightmost_duplicate_column_wins_witness :
    buildRow ["foglio", "numero", "numero"] ["1", "A", "B"]
      = Except.ok [("foglio", Val.s "1"), ("numero", Val.s "B")] ∧
    ∃ cell, (["1", "A", "B"] : List String).get? 2 = some cell ∧
      dictGet [("foglio", Val.s "1"), ("numero", Val.s "B")] "numero"
        = some (Val.s (String.mk (pyStrip cell.data))) :=
  ⟨by rfl,
   rightmost_duplicate_column_wins ["foglio", "numero", "numero"]
     ["1", "A", "B"] "numero" 1 2 _ (by decide) (by rfl) (by rfl)
     (by
       intro k hk
       rw [List.get?_eq_none.mpr (by simp; omega)]
       simp)
     (by decide) (by decide) (by decide) (by rfl)⟩

end Visura
